import Mathlib

/-!
Shallow embedding of the coupon-distribution application:
the client logic of `src/App.tsx` (fetchCoupons, checkLastClaim, claimCoupon)
and the data-store schema, row-level-security policies and seed script of the
SQL migration. Timestamps are milliseconds as natural numbers; the managed
store is a pair of lists of rows; fallible network calls are modelled by
explicit error-injection flags, and the supabase `{ data, error }` shape by
`Option` results (data is null exactly when the call errors).
-/

namespace CouponApp

/-- A row of the `coupons` table: id (uuid), unique code, description,
is_claimed flag (default false), created_at timestamp (default now()). -/
structure Coupon where
  id : String
  code : String
  description : String
  is_claimed : Bool
  created_at : Nat
deriving Repr, DecidableEq

/-- A row of the `claims` table: id, coupon_id (foreign key), ip_address,
browser_id, claimed_at timestamp (default now()). -/
structure ClaimRecord where
  id : String
  coupon_id : String
  ip_address : String
  browser_id : String
  claimed_at : Nat
deriving Repr, DecidableEq

/-- The managed relational store: the two tables. -/
structure Store where
  coupons : List Coupon
  claims : List ClaimRecord
deriving Repr, DecidableEq

/-- Insert an element into a list ordered by the boolean relation `le`
(kernel-computable model of the store's ORDER BY). -/
def insertLe (le : α → α → Bool) (a : α) : List α → List α
  | [] => [a]
  | b :: l => if le a b then a :: b :: l else b :: insertLe le a l

/-- Insertion sort by the boolean relation `le`. -/
def sortLe (le : α → α → Bool) : List α → List α
  | [] => []
  | a :: l => insertLe le a (sortLe le l)

/-- ORDER BY created_at ASC comparison on coupon rows. -/
def couponLe (a b : Coupon) : Bool := a.created_at ≤ b.created_at

/-- ORDER BY claimed_at DESC comparison on claim rows. -/
def claimDesc (a b : ClaimRecord) : Bool := b.claimed_at ≤ a.claimed_at

/-- Embedding of `fetchCoupons`: SELECT * FROM coupons ORDER BY created_at
ascending (the whole table, no pagination). -/
def fetchCoupons (s : Store) : List Coupon := sortLe couponLe s.coupons

/-- Embedding of the recent-claims query used on load and before each claim:
SELECT claimed_at FROM claims ORDER BY claimed_at DESC LIMIT 1. -/
def recentClaimsQuery (s : Store) : List Nat :=
  ((sortLe claimDesc s.claims).map (fun cl => cl.claimed_at)).take 1

/-- One hour of cooldown, in milliseconds (60 * 60 * 1000). -/
def hourMs : Nat := 3600000

/-- Embedding of `checkLastClaim`: when the store holds at least one claim,
nextClaimTime is set to the most recent claimed_at plus one hour; otherwise
the previous value `next0` is kept. -/
def checkLastClaim (s : Store) (next0 : Option Nat) : Option Nat :=
  match recentClaimsQuery s with
  | t :: _ => some (t + hourMs)
  | [] => next0

/-- Embedding of line 85 of App.tsx: `coupons.find((c) => !c.is_claimed)`,
the first unclaimed coupon of the client's already-fetched list. -/
def selectCoupon (coupons : List Coupon) : Option Coupon :=
  coupons.find? (fun c => !c.is_claimed)

/-- The rate-limit check of `claimCoupon` (lines 92-109 of App.tsx). The
destructured `data` is null when the query errors, and the error component is
never inspected, so an errored query behaves like an empty result. When the
most recent claimed_at `t` is under one hour old (the code computes
(Date.now() - t) / 3600000 < 1 with exact integer-valued arithmetic,
equivalent to now - t < 3600000 over the integers), the gate returns the next
eligible instant `t + hourMs`; otherwise it returns none and the claim
proceeds. -/
def rateLimitGate (queryErr : Bool) (now : Nat) (s : Store) : Option Nat :=
  if queryErr then none
  else
    match recentClaimsQuery s with
    | t :: _ => if (now : Int) - (t : Int) < (hourMs : Int) then some (t + hourMs) else none
    | [] => none

/-- Embedding of the coupons UPDATE of lines 117-120, restricted by the
row-level-security policy "Anyone can update unclaimed coupons"
(USING (NOT is_claimed)): only rows whose id matches and whose is_claimed
flag is still false are written, and the write sets is_claimed to true. -/
def storeUpdateClaim (s : Store) (cid : String) : Store :=
  { s with
    coupons := s.coupons.map (fun c =>
      if c.id == cid && !c.is_claimed then { c with is_claimed := true } else c) }

/-- Embedding of the claims INSERT of lines 124-132: a new row with the
chosen coupon's id, the browser identifier, the constant placeholder
ip_address, and claimed_at defaulted by the store to the current time. -/
def storeInsertClaim (s : Store) (newId cid bid : String) (now : Nat) : Store :=
  { s with claims := s.claims ++ [⟨newId, cid, "client-ip", bid, now⟩] }

/-- Outcome of one invocation of `claimCoupon`, as surfaced to the user. -/
inductive Outcome where
  | inFlight
  | noCoupons
  | rateLimited
  | updateFailed
  | insertFailed
  | success (code : String)
deriving Repr, DecidableEq

/-- State visible after one invocation of `claimCoupon`: the store, the
locally persisted browser identifier, the in-flight flag, the nextClaimTime
countdown target, and the outcome. -/
structure ClaimResult where
  store : Store
  browserIdStored : Option String
  claiming : Bool
  nextClaimTime : Option Nat
  outcome : Outcome
deriving Repr, DecidableEq

/-- The client-side inputs of one `claimCoupon` invocation: the in-flight
flag, the previously fetched coupon list, the localStorage browser id, the
fresh uuid drawn if one is needed, the wall clock, the store-generated id of
a would-be claim row, the error-injection flags of the three network calls,
and the current nextClaimTime. -/
structure ClaimInput where
  claiming : Bool
  coupons : List Coupon
  localBrowserId : Option String
  freshId : String
  now : Nat
  newClaimId : String
  queryErr : Bool
  updateErr : Bool
  insertErr : Bool
  nextClaimTime : Option Nat
deriving Repr, DecidableEq

/-- Embedding of `claimCoupon` (lines 80-145 of App.tsx). The guard returns
immediately while a claim is in flight; otherwise the first unclaimed coupon
of the already-fetched list is selected (the list is not re-queried), the
rate-limit gate runs against the store, the browser id is read from local
storage or freshly generated and persisted, the coupon update and the claim
insert run sequentially with no rollback on partial failure, and on success
the countdown state is refreshed from the store via `checkLastClaim`. -/
def claimCoupon (inp : ClaimInput) (s : Store) : ClaimResult :=
  if inp.claiming then
    ⟨s, inp.localBrowserId, true, inp.nextClaimTime, Outcome.inFlight⟩
  else
    match selectCoupon inp.coupons with
    | none => ⟨s, inp.localBrowserId, false, inp.nextClaimTime, Outcome.noCoupons⟩
    | some availableCoupon =>
      match rateLimitGate inp.queryErr inp.now s with
      | some nextAvailable =>
        ⟨s, inp.localBrowserId, false, some nextAvailable, Outcome.rateLimited⟩
      | none =>
        let browserId := inp.localBrowserId.getD inp.freshId
        if inp.updateErr then
          ⟨s, some browserId, false, inp.nextClaimTime, Outcome.updateFailed⟩
        else
          let s1 := storeUpdateClaim s availableCoupon.id
          if inp.insertErr then
            ⟨s1, some browserId, false, inp.nextClaimTime, Outcome.insertFailed⟩
          else
            let s2 := storeInsertClaim s1 inp.newClaimId availableCoupon.id browserId inp.now
            ⟨s2, some browserId, false, checkLastClaim s2 inp.nextClaimTime,
              Outcome.success availableCoupon.code⟩

/-- Two rapid successive clicks from one session: the second click's handler
runs while the first is still in flight (claiming = true) and hits the guard;
the first then completes against the untouched store. -/
def twoRapidClicks (inp : ClaimInput) (s : Store) : ClaimResult :=
  let second := claimCoupon { inp with claiming := true } s
  claimCoupon { inp with claiming := false } second.store

/-- The five seed rows of the migration: code and description. -/
def seedRows : List (String × String) :=
  [("SAVE10", "10% off your next purchase"),
   ("FREESHIP", "Free shipping on orders over $50"),
   ("SPRING25", "25% off spring collection"),
   ("WELCOME15", "15% off for new customers"),
   ("FLASH50", "50% off flash sale")]

/-- One row of INSERT ... ON CONFLICT DO NOTHING against the unique code
column: a row whose code is already present is skipped. `mk` models the
store-side defaults (gen_random_uuid, is_claimed false, now()). -/
def insertRow (mk : String → String → Coupon) (cs : List Coupon)
    (row : String × String) : List Coupon :=
  if cs.any (fun c => c.code == row.1) then cs else cs ++ [mk row.1 row.2]

/-- Embedding of the seed script: the five rows inserted in order, each
skipped when its code is already present. -/
def seedCoupons (mk : String → String → Coupon) (cs : List Coupon) : List Coupon :=
  seedRows.foldl (insertRow mk) cs

/-! Helper lemmas about the insertion-sort model of ORDER BY. -/

theorem insertLe_perm (le : α → α → Bool) (a : α) (l : List α) :
    (insertLe le a l).Perm (a :: l) := by
  induction l with
  | nil => simp [insertLe]
  | cons b l ih =>
    simp only [insertLe]
    by_cases h : le a b
    · simp [h]
    · simp only [h, if_neg, Bool.false_eq_true, ite_false]
      exact (ih.cons b).trans (List.Perm.swap a b l)

theorem sortLe_perm (le : α → α → Bool) (l : List α) : (sortLe le l).Perm l := by
  induction l with
  | nil => simp [sortLe]
  | cons a l ih =>
    exact (insertLe_perm le a (sortLe le l)).trans (ih.cons a)

theorem pairwise_insertLe (le : α → α → Bool)
    (htrans : ∀ a b c, le a b = true → le b c = true → le a c = true)
    (htot : ∀ a b, le a b = true ∨ le b a = true)
    (a : α) (l : List α) (hl : l.Pairwise (fun x y => le x y = true)) :
    (insertLe le a l).Pairwise (fun x y => le x y = true) := by
  induction l with
  | nil => simp [insertLe]
  | cons b l ih =>
    rcases List.pairwise_cons.mp hl with ⟨hb, hl2⟩
    simp only [insertLe]
    by_cases h : le a b = true
    · simp only [h, ite_true]
      refine List.pairwise_cons.mpr ⟨?_, hl⟩
      intro x hx
      rcases List.mem_cons.mp hx with rfl | hx2
      · exact h
      · exact htrans a b x h (hb x hx2)
    · simp only [h, Bool.false_eq_true, ite_false]
      have hba : le b a = true := (htot a b).resolve_left h
      refine List.pairwise_cons.mpr ⟨?_, ih hl2⟩
      intro x hx
      rcases List.mem_cons.mp ((insertLe_perm le a l).mem_iff.mp hx) with rfl | hx2
      · exact hba
      · exact hb x hx2

theorem pairwise_sortLe (le : α → α → Bool)
    (htrans : ∀ a b c, le a b = true → le b c = true → le a c = true)
    (htot : ∀ a b, le a b = true ∨ le b a = true)
    (l : List α) : (sortLe le l).Pairwise (fun x y => le x y = true) := by
  induction l with
  | nil => simp [sortLe]
  | cons a l ih => exact pairwise_insertLe le htrans htot a (sortLe le l) ih

theorem sortLe_head (le : α → α → Bool)
    (htrans : ∀ a b c, le a b = true → le b c = true → le a c = true)
    (htot : ∀ a b, le a b = true ∨ le b a = true)
    (l : List α) (h : α) (rest : List α)
    (hs : sortLe le l = h :: rest) (x : α) (hx : x ∈ l) :
    x = h ∨ le h x = true := by
  have hp := pairwise_sortLe le htrans htot l
  have hperm := sortLe_perm le l
  rw [hs] at hp hperm
  rcases List.mem_cons.mp (hperm.mem_iff.mpr hx) with rfl | hx2
  · exact Or.inl rfl
  · exact Or.inr ((List.pairwise_cons.mp hp).1 x hx2)

theorem find?_min (le : α → α → Bool) (p : α → Bool)
    (hrefl : ∀ a, le a a = true) (l : List α)
    (hp : l.Pairwise (fun x y => le x y = true))
    (a : α) (hfind : l.find? p = some a) :
    ∀ b ∈ l, p b = true → le a b = true := by
  induction l with
  | nil => simp at hfind
  | cons x l ih =>
    rcases List.pairwise_cons.mp hp with ⟨hx, hl⟩
    by_cases hpx : p x = true
    · rw [List.find?_cons_of_pos _ hpx] at hfind
      cases hfind
      intro b hb hpb
      rcases List.mem_cons.mp hb with rfl | hb2
      · exact hrefl b
      · exact hx b hb2
    · rw [List.find?_cons_of_neg _ (by simpa using hpx)] at hfind
      intro b hb hpb
      rcases List.mem_cons.mp hb with rfl | hb2
      · exact absurd hpb hpx
      · exact ih hl hfind b hb2 hpb

theorem insertLe_map (le : α → α → Bool) (f : α → α)
    (hle : ∀ a b, le (f a) (f b) = le a b) (a : α) (l : List α) :
    insertLe le (f a) (l.map f) = (insertLe le a l).map f := by
  induction l with
  | nil => rfl
  | cons b l ih =>
    simp only [List.map_cons, insertLe, hle]
    by_cases h : le a b
    · simp [h]
    · simp [h, ih]

theorem sortLe_map (le : α → α → Bool) (f : α → α)
    (hle : ∀ a b, le (f a) (f b) = le a b) (l : List α) :
    sortLe le (l.map f) = (sortLe le l).map f := by
  induction l with
  | nil => rfl
  | cons a l ih => simp only [List.map_cons, sortLe, ih, insertLe_map le f hle]

theorem forall₂_self (R : α → α → Prop) (l : List α) (h : ∀ x ∈ l, R x x) :
    List.Forall₂ R l l := by
  induction l with
  | nil => exact List.Forall₂.nil
  | cons a l ih =>
    exact List.Forall₂.cons (h a (List.mem_cons_self a l))
      (ih fun x hx => h x (List.mem_cons_of_mem a hx))

theorem forall₂_map (R : α → α → Prop) (f : α → α) (l : List α)
    (h : ∀ x ∈ l, R x (f x)) : List.Forall₂ R l (l.map f) := by
  induction l with
  | nil => exact List.Forall₂.nil
  | cons a l ih =>
    exact List.Forall₂.cons (h a (List.mem_cons_self a l))
      (ih fun x hx => h x (List.mem_cons_of_mem a hx))

theorem couponLe_trans : ∀ a b c : Coupon,
    couponLe a b = true → couponLe b c = true → couponLe a c = true := by
  intro a b c hab hbc
  simp only [couponLe, decide_eq_true_eq] at hab hbc ⊢
  omega

theorem couponLe_total : ∀ a b : Coupon, couponLe a b = true ∨ couponLe b a = true := by
  intro a b
  simp only [couponLe, decide_eq_true_eq]
  omega

theorem couponLe_refl : ∀ a : Coupon, couponLe a a = true := by
  intro a
  simp [couponLe]

theorem claimDesc_trans : ∀ a b c : ClaimRecord,
    claimDesc a b = true → claimDesc b c = true → claimDesc a c = true := by
  intro a b c hab hbc
  simp only [claimDesc, decide_eq_true_eq] at hab hbc ⊢
  omega

theorem claimDesc_total : ∀ a b : ClaimRecord,
    claimDesc a b = true ∨ claimDesc b a = true := by
  intro a b
  simp only [claimDesc, decide_eq_true_eq]
  omega

/-! Concrete sample data used by the witness theorems. -/

def sampleCouponA : Coupon := ⟨"idA", "SAVE10", "10% off your next purchase", false, 100⟩

def sampleCouponB : Coupon := ⟨"idB", "FREESHIP", "Free shipping on orders over $50", true, 50⟩

def sampleClaim : ClaimRecord := ⟨"cl1", "idB", "client-ip", "b1", 1000⟩

def sampleStore : Store := ⟨[sampleCouponA, sampleCouponB], [sampleClaim]⟩

def sampleInput (now : Nat) : ClaimInput :=
  ⟨false, [sampleCouponA, sampleCouponB], none, "fresh-uuid", now, "cl2",
    false, false, false, none⟩

/-- C1: with the most recent claim at time T, a claim attempt strictly less
than one hour later is refused with no store write and the countdown target
set to T plus one hour; an attempt strictly more than one hour later gets
past the guard, the availability check and the rate limit. -/
theorem c1_cooldown (inp : ClaimInput) (s : Store) (a : Coupon) (T : Nat)
    (hc : inp.claiming = false)
    (hsel : selectCoupon inp.coupons = some a)
    (hq : inp.queryErr = false)
    (hT : recentClaimsQuery s = [T]) :
    ((inp.now : Int) - (T : Int) < (hourMs : Int) →
      claimCoupon inp s =
        ⟨s, inp.localBrowserId, false, some (T + hourMs), Outcome.rateLimited⟩) ∧
    ((hourMs : Int) < (inp.now : Int) - (T : Int) →
      (claimCoupon inp s).outcome ≠ Outcome.inFlight ∧
      (claimCoupon inp s).outcome ≠ Outcome.noCoupons ∧
      (claimCoupon inp s).outcome ≠ Outcome.rateLimited) := by
  constructor
  · intro hlt
    have hgate : rateLimitGate inp.queryErr inp.now s = some (T + hourMs) := by
      simp [rateLimitGate, hq, hT, hlt]
    simp [claimCoupon, hc, hsel, hgate]
  · intro hgt
    have hnot : ¬ ((inp.now : Int) - (T : Int) < (hourMs : Int)) :=
      not_lt.mpr (le_of_lt hgt)
    have hgate : rateLimitGate inp.queryErr inp.now s = none := by
      simp [rateLimitGate, hq, hT, hnot]
    by_cases hu : inp.updateErr <;> by_cases hi : inp.insertErr <;>
      simp [claimCoupon, hc, hsel, hgate, hu, hi]

/-- Witness for C1: a claim at 1000ms on the clock; an attempt 59 minutes
later is refused with countdown to 3601000 = 1000 + one hour; an attempt 61
minutes later is not rate-limited. -/
theorem c1_cooldown_witness :
    claimCoupon (sampleInput 3541000) sampleStore =
      ⟨sampleStore, none, false, some 3601000, Outcome.rateLimited⟩ ∧
    (claimCoupon (sampleInput 3661000) sampleStore).outcome ≠ Outcome.rateLimited := by
  constructor
  · exact (c1_cooldown (sampleInput 3541000) sampleStore sampleCouponA 1000
      (by decide) (by decide) (by decide) (by decide)).1 (by decide)
  · exact ((c1_cooldown (sampleInput 3661000) sampleStore sampleCouponA 1000
      (by decide) (by decide) (by decide) (by decide)).2 (by decide)).2.2

/-- C5: when every coupon of the client's fetched list is claimed, the claim
attempt ends with the no-coupons outcome and the store is untouched. -/
theorem c5_all_claimed (inp : ClaimInput) (s : Store)
    (hc : inp.claiming = false)
    (hall : ∀ c ∈ inp.coupons, c.is_claimed = true) :
    claimCoupon inp s =
      ⟨s, inp.localBrowserId, false, inp.nextClaimTime, Outcome.noCoupons⟩ := by
  have hsel : selectCoupon inp.coupons = none := by
    apply List.find?_eq_none.mpr
    intro c hcm
    simp [hall c hcm]
  simp [claimCoupon, hc, hsel]

/-- Witness for C5 at a store whose only listed coupon is already claimed. -/
theorem c5_all_claimed_witness :
    claimCoupon ⟨false, [sampleCouponB], some "b1", "fresh-uuid", 5000000, "cl2",
        false, false, false, none⟩ sampleStore =
      ⟨sampleStore, some "b1", false, none, Outcome.noCoupons⟩ :=
  c5_all_claimed _ sampleStore (by decide) (by decide)

/-- C2: when the coupon update succeeds and the claim insert fails, the run
ends with the update in place and nothing else: the claims table is exactly
the old one (no insert, no compensating write), every stored coupon carrying
the selected id is left claimed, and the only surfaced effect is the
insert-failed outcome. -/
theorem c2_partial_failure (inp : ClaimInput) (s : Store) (a : Coupon)
    (hc : inp.claiming = false)
    (hsel : selectCoupon inp.coupons = some a)
    (hrate : rateLimitGate inp.queryErr inp.now s = none)
    (hupd : inp.updateErr = false)
    (hins : inp.insertErr = true) :
    claimCoupon inp s =
      ⟨storeUpdateClaim s a.id, some (inp.localBrowserId.getD inp.freshId), false,
        inp.nextClaimTime, Outcome.insertFailed⟩ ∧
    (claimCoupon inp s).store.claims = s.claims ∧
    ∀ c ∈ (claimCoupon inp s).store.coupons, c.id = a.id → c.is_claimed = true := by
  have h1 : claimCoupon inp s =
      ⟨storeUpdateClaim s a.id, some (inp.localBrowserId.getD inp.freshId), false,
        inp.nextClaimTime, Outcome.insertFailed⟩ := by
    simp [claimCoupon, hc, hsel, hrate, hupd, hins]
  refine ⟨h1, by rw [h1]; rfl, ?_⟩
  rw [h1]
  intro c hcm hid
  simp only [storeUpdateClaim, List.mem_map] at hcm
  obtain ⟨c0, hc0, rfl⟩ := hcm
  by_cases hcond : (c0.id == a.id && !c0.is_claimed) = true
  · simp [hcond]
  · simp only [hcond, Bool.false_eq_true, ite_false] at hid ⊢
    by_contra hncl
    apply hcond
    simp only [Bool.not_eq_true] at hncl
    simp [hid, hncl]

/-- Witness for C2: insert failure injected after a successful update leaves
the sample coupon claimed and the claims table unchanged. -/
theorem c2_partial_failure_witness :
    claimCoupon ⟨false, [sampleCouponA, sampleCouponB], some "b1", "fresh-uuid",
        5000000, "cl2", false, false, true, none⟩ sampleStore =
      ⟨storeUpdateClaim sampleStore "idA", some "b1", false, none,
        Outcome.insertFailed⟩ :=
  (c2_partial_failure _ sampleStore sampleCouponA (by decide) (by decide)
    (by decide) (by decide) (by decide)).1

/-- C8: once an attempt gets past the guard, the availability check and the
rate limit, the browser identifier actually used is the locally stored one
when present and the freshly generated one otherwise; it is the value left in
local storage, and every claim row added by the run carries it. -/
theorem c8_browser_id (inp : ClaimInput) (s : Store) (a : Coupon)
    (hc : inp.claiming = false)
    (hsel : selectCoupon inp.coupons = some a)
    (hrate : rateLimitGate inp.queryErr inp.now s = none) :
    (claimCoupon inp s).browserIdStored = some (inp.localBrowserId.getD inp.freshId) ∧
    (inp.localBrowserId = none →
      (claimCoupon inp s).browserIdStored = some inp.freshId) ∧
    (∀ b, inp.localBrowserId = some b →
      (claimCoupon inp s).browserIdStored = some b) ∧
    (∀ cl ∈ (claimCoupon inp s).store.claims, cl ∉ s.claims →
      cl.browser_id = inp.localBrowserId.getD inp.freshId) := by
  refine ⟨?_, ?_, ?_, ?_⟩
  · by_cases hu : inp.updateErr <;> by_cases hi : inp.insertErr <;>
      simp [claimCoupon, hc, hsel, hrate, hu, hi]
  · intro hn
    by_cases hu : inp.updateErr <;> by_cases hi : inp.insertErr <;>
      simp [claimCoupon, hc, hsel, hrate, hu, hi, hn]
  · intro b hb
    by_cases hu : inp.updateErr <;> by_cases hi : inp.insertErr <;>
      simp [claimCoupon, hc, hsel, hrate, hu, hi, hb]
  · intro cl hcl hn
    by_cases hu : inp.updateErr <;> by_cases hi : inp.insertErr
    · simp only [claimCoupon, hc, hsel, hrate, hu, hi, ite_true] at hcl
      exact absurd hcl hn
    · simp only [claimCoupon, hc, hsel, hrate, hu, hi, ite_true] at hcl
      exact absurd hcl hn
    · simp only [claimCoupon, hc, hsel, hrate, hu, hi, Bool.false_eq_true,
        ite_false, ite_true, storeUpdateClaim] at hcl
      exact absurd hcl hn
    · simp only [claimCoupon, hc, hsel, hrate, hu, hi, Bool.false_eq_true,
        ite_false, storeInsertClaim, storeUpdateClaim] at hcl
      rcases List.mem_append.mp hcl with h | h
      · exact absurd h hn
      · rcases List.mem_singleton.mp h with rfl
        rfl

/-- Witness for C8: with no stored identifier the fresh uuid is persisted and
carried by the inserted claim row. -/
theorem c8_browser_id_witness :
    (claimCoupon (sampleInput 5000000) sampleStore).browserIdStored =
      some "fresh-uuid" :=
  (c8_browser_id (sampleInput 5000000) sampleStore sampleCouponA
    (by decide) (by decide) (by decide)).2.1 (by decide)

/-- C10: when the recent-claims query errors (null data, error component never
read), the rate limit is silently skipped: even with a most recent claim under
one hour old the attempt proceeds and writes the store, while the same attempt
with a successful query is refused. -/
theorem c10_query_error_bypass (inp : ClaimInput) (s : Store) (a : Coupon)
    (t : Nat) (rest : List Nat)
    (hc : inp.claiming = false)
    (hsel : selectCoupon inp.coupons = some a)
    (hq : inp.queryErr = true)
    (hT : recentClaimsQuery s = t :: rest)
    (hrecent : (inp.now : Int) - (t : Int) < (hourMs : Int))
    (hupd : inp.updateErr = false)
    (hins : inp.insertErr = false) :
    (claimCoupon inp s).outcome = Outcome.success a.code ∧
    (claimCoupon inp s).store.claims =
      s.claims ++ [⟨inp.newClaimId, a.id, "client-ip",
        inp.localBrowserId.getD inp.freshId, inp.now⟩] ∧
    (claimCoupon { inp with queryErr := false } s).outcome = Outcome.rateLimited := by
  have hgate : rateLimitGate inp.queryErr inp.now s = none := by
    simp [rateLimitGate, hq]
  have hgate2 : rateLimitGate false inp.now s = some (t + hourMs) := by
    simp [rateLimitGate, hT, hrecent]
  refine ⟨?_, ?_, ?_⟩ <;>
    simp [claimCoupon, hc, hsel, hgate, hgate2, hupd, hins,
      storeInsertClaim, storeUpdateClaim]

/-- Witness for C10: 59 minutes after the last claim, the errored query lets
the claim through while the successful query refuses it. -/
theorem c10_query_error_bypass_witness :
    (claimCoupon ⟨false, [sampleCouponA, sampleCouponB], none, "fresh-uuid",
        3541000, "cl2", true, false, false, none⟩ sampleStore).outcome =
      Outcome.success "SAVE10" ∧
    (claimCoupon (sampleInput 3541000) sampleStore).outcome =
      Outcome.rateLimited := by
  have h := c10_query_error_bypass
    ⟨false, [sampleCouponA, sampleCouponB], none, "fresh-uuid", 3541000, "cl2",
      true, false, false, none⟩ sampleStore sampleCouponA 1000 []
    (by decide) (by decide) (by decide) (by decide) (by decide) (by decide)
    (by decide)
  exact ⟨h.1, h.2.2⟩

/-- C3: the fetched list is a permutation of the coupons table sorted by
creation time, and the coupon the claim operation selects from it (the first
with a false claimed flag, chosen from the already-fetched list with no
re-query) is an unclaimed coupon of the table whose creation time is minimal
among all unclaimed coupons. -/
theorem c3_selection (s : Store) (a : Coupon)
    (hsel : selectCoupon (fetchCoupons s) = some a) :
    (fetchCoupons s).Perm s.coupons ∧
    a.is_claimed = false ∧ a ∈ s.coupons ∧
    ∀ c ∈ s.coupons, c.is_claimed = false → a.created_at ≤ c.created_at := by
  have hperm : (fetchCoupons s).Perm s.coupons := sortLe_perm couponLe s.coupons
  have hp : (fetchCoupons s).Pairwise (fun x y => couponLe x y = true) :=
    pairwise_sortLe couponLe couponLe_trans couponLe_total s.coupons
  have hsel2 : (fetchCoupons s).find? (fun c => !c.is_claimed) = some a := hsel
  have hmin := find?_min couponLe (fun c => !c.is_claimed) couponLe_refl
    (fetchCoupons s) hp a hsel2
  refine ⟨hperm, ?_, ?_, ?_⟩
  · have := List.find?_some hsel2
    simpa using this
  · exact hperm.mem_iff.mp (List.mem_of_find?_eq_some hsel2)
  · intro c hcm hcl
    have hcf : c ∈ fetchCoupons s := hperm.mem_iff.mpr hcm
    have := hmin c hcf (by simp [hcl])
    simpa [couponLe] using this

/-- Witness for C3: on the sample store the selection picks the unclaimed
coupon of minimal creation time. -/
theorem c3_selection_witness :
    sampleCouponA.is_claimed = false ∧
    ∀ c ∈ sampleStore.coupons, c.is_claimed = false →
      sampleCouponA.created_at ≤ c.created_at := by
  have h := c3_selection sampleStore sampleCouponA (by decide)
  exact ⟨h.2.1, h.2.2.2⟩

/-- One invocation either leaves the claims table unchanged with a
non-success outcome, or appends exactly one row and succeeds. -/
theorem claimCoupon_claims_cases (inp : ClaimInput) (s : Store) :
    ((claimCoupon inp s).store.claims = s.claims ∧
      ∀ code, (claimCoupon inp s).outcome ≠ Outcome.success code) ∨
    ((∃ cl, (claimCoupon inp s).store.claims = s.claims ++ [cl]) ∧
      ∃ code, (claimCoupon inp s).outcome = Outcome.success code) := by
  by_cases hcg : inp.claiming
  · left
    simp [claimCoupon, hcg]
  · cases hsel : selectCoupon inp.coupons with
    | none =>
      left
      simp [claimCoupon, hcg, hsel]
    | some a =>
      cases hrate : rateLimitGate inp.queryErr inp.now s with
      | some nxt =>
        left
        simp [claimCoupon, hcg, hsel, hrate]
      | none =>
        by_cases hu : inp.updateErr
        · left
          simp [claimCoupon, hcg, hsel, hrate, hu]
        · by_cases hi : inp.insertErr
          · left
            simp [claimCoupon, hcg, hsel, hrate, hu, hi, storeUpdateClaim]
          · right
            constructor
            · refine ⟨⟨inp.newClaimId, a.id, "client-ip",
                inp.localBrowserId.getD inp.freshId, inp.now⟩, ?_⟩
              simp [claimCoupon, hcg, hsel, hrate, hu, hi,
                storeInsertClaim, storeUpdateClaim]
            · refine ⟨a.code, ?_⟩
              simp [claimCoupon, hcg, hsel, hrate, hu, hi]

/-- C4: an invocation that finds the in-flight flag set returns immediately
with no change to the store or local state, so two rapid successive clicks
(the second arriving while the first is in flight) add at most one claim row,
and exactly one when the surviving invocation succeeds. -/
theorem c4_inflight_guard (inp : ClaimInput) (s : Store) :
    claimCoupon { inp with claiming := true } s =
      ⟨s, inp.localBrowserId, true, inp.nextClaimTime, Outcome.inFlight⟩ ∧
    (twoRapidClicks inp s).store.claims.length ≤ s.claims.length + 1 ∧
    (∀ code, (twoRapidClicks inp s).outcome = Outcome.success code →
      (twoRapidClicks inp s).store.claims.length = s.claims.length + 1) := by
  have hguard : claimCoupon { inp with claiming := true } s =
      ⟨s, inp.localBrowserId, true, inp.nextClaimTime, Outcome.inFlight⟩ := by
    simp [claimCoupon]
  have htwo : twoRapidClicks inp s = claimCoupon { inp with claiming := false } s := by
    simp [twoRapidClicks, hguard]
  refine ⟨hguard, ?_, ?_⟩
  · rw [htwo]
    rcases claimCoupon_claims_cases { inp with claiming := false } s with
      ⟨h1, -⟩ | ⟨⟨cl, h1⟩, -⟩
    · rw [h1]
      omega
    · rw [h1]
      simp
  · intro code hcode
    rw [htwo] at hcode ⊢
    rcases claimCoupon_claims_cases { inp with claiming := false } s with
      ⟨h1, h2⟩ | ⟨⟨cl, h1⟩, -⟩
    · exact absurd hcode (h2 code)
    · rw [h1]
      simp

/-- Witness for C4: on the sample store, two rapid clicks add exactly one
claim row. -/
theorem c4_inflight_guard_witness :
    (twoRapidClicks (sampleInput 5000000) sampleStore).store.claims.length =
      sampleStore.claims.length + 1 :=
  (c4_inflight_guard (sampleInput 5000000) sampleStore).2.2 "SAVE10" (by decide)

/-- The result coupons table of one invocation is the input table, either
unchanged or written through the policy-restricted update. -/
theorem claimCoupon_coupons_cases (inp : ClaimInput) (s : Store) :
    (claimCoupon inp s).store.coupons = s.coupons ∨
    ∃ cid, (claimCoupon inp s).store.coupons = (storeUpdateClaim s cid).coupons := by
  by_cases hcg : inp.claiming
  · left
    simp [claimCoupon, hcg]
  · cases hsel : selectCoupon inp.coupons with
    | none =>
      left
      simp [claimCoupon, hcg, hsel]
    | some a =>
      cases hrate : rateLimitGate inp.queryErr inp.now s with
      | some nxt =>
        left
        simp [claimCoupon, hcg, hsel, hrate]
      | none =>
        by_cases hu : inp.updateErr
        · left
          simp [claimCoupon, hcg, hsel, hrate, hu]
        · by_cases hi : inp.insertErr
          · right
            refine ⟨a.id, ?_⟩
            simp [claimCoupon, hcg, hsel, hrate, hu, hi]
          · right
            refine ⟨a.id, ?_⟩
            simp [claimCoupon, hcg, hsel, hrate, hu, hi, storeInsertClaim]

/-- C6: the claimed flag only moves from false to true. The policy-restricted
update (the client's only coupon write) preserves each row's id and code and
never clears a set claimed flag, and consequently so does a whole claim
invocation, whatever its inputs and injected failures. -/
theorem c6_claimed_monotone (inp : ClaimInput) (s : Store) :
    (∀ cid, List.Forall₂
      (fun c c2 => c.id = c2.id ∧ c.code = c2.code ∧
        (c.is_claimed = true → c2.is_claimed = true))
      s.coupons (storeUpdateClaim s cid).coupons) ∧
    List.Forall₂
      (fun c c2 => c.id = c2.id ∧ c.code = c2.code ∧
        (c.is_claimed = true → c2.is_claimed = true))
      s.coupons (claimCoupon inp s).store.coupons := by
  have hupd : ∀ cid, List.Forall₂
      (fun c c2 => c.id = c2.id ∧ c.code = c2.code ∧
        (c.is_claimed = true → c2.is_claimed = true))
      s.coupons (storeUpdateClaim s cid).coupons := by
    intro cid
    simp only [storeUpdateClaim]
    apply forall₂_map
    intro x hx
    by_cases hcond : (x.id == cid && !x.is_claimed) = true
    · simp [hcond]
    · simp [hcond]
  refine ⟨hupd, ?_⟩
  rcases claimCoupon_coupons_cases inp s with h | ⟨cid, h⟩
  · rw [h]
    exact forall₂_self _ _ (fun x hx => ⟨rfl, rfl, fun hcl => hcl⟩)
  · rw [h]
    exact hupd cid

/-- Witness for C6: a concrete successful run never clears a claimed flag. -/
theorem c6_claimed_monotone_witness :
    List.Forall₂
      (fun c c2 => c.id = c2.id ∧ c.code = c2.code ∧
        (c.is_claimed = true → c2.is_claimed = true))
      sampleStore.coupons
      (claimCoupon (sampleInput 5000000) sampleStore).store.coupons :=
  (c6_claimed_monotone (sampleInput 5000000) sampleStore).2

/-- A claim row with its browser identifier rewritten; used to state that
the cooldown ignores the browser identifier. -/
def renameBrowser (f : String → String) (cl : ClaimRecord) : ClaimRecord :=
  { cl with browser_id := f cl.browser_id }

/-- C7: the recent-claims query, the on-load check and the pre-claim rate
gate are invariant under any rewriting of the browser identifiers of the
claims table (no per-user scoping), and the timestamp they use bounds every
claim row's timestamp: it is the single most recent claim across all
visitors. -/
theorem c7_global_cooldown (s : Store) (f : String → String) (qe : Bool)
    (now : Nat) (next0 : Option Nat) :
    recentClaimsQuery ⟨s.coupons, s.claims.map (renameBrowser f)⟩ =
      recentClaimsQuery s ∧
    checkLastClaim ⟨s.coupons, s.claims.map (renameBrowser f)⟩ next0 =
      checkLastClaim s next0 ∧
    rateLimitGate qe now ⟨s.coupons, s.claims.map (renameBrowser f)⟩ =
      rateLimitGate qe now s ∧
    ∀ t rest, recentClaimsQuery s = t :: rest →
      ∀ cl ∈ s.claims, cl.claimed_at ≤ t := by
  have hle : ∀ a b, claimDesc (renameBrowser f a) (renameBrowser f b) =
      claimDesc a b := by
    intro a b
    rfl
  have hq : recentClaimsQuery ⟨s.coupons, s.claims.map (renameBrowser f)⟩ =
      recentClaimsQuery s := by
    simp only [recentClaimsQuery]
    rw [sortLe_map claimDesc (renameBrowser f) hle, List.map_map]
    rfl
  refine ⟨hq, by simp [checkLastClaim, hq], by simp [rateLimitGate, hq], ?_⟩
  intro t rest hts cl hcl
  cases hsort : sortLe claimDesc s.claims with
  | nil =>
    rw [recentClaimsQuery, hsort] at hts
    simp at hts
  | cons h tail =>
    have hone : recentClaimsQuery s = [h.claimed_at] := by
      rw [recentClaimsQuery, hsort]
      rfl
    rw [hone] at hts
    simp only [List.cons.injEq] at hts
    obtain ⟨h2, -⟩ := hts
    subst h2
    rcases sortLe_head claimDesc claimDesc_trans claimDesc_total s.claims h tail
      hsort cl hcl with rfl | hle2
    · exact le_refl _
    · simpa [claimDesc] using hle2

/-- Witness for C7: renaming every browser id of the sample store leaves the
query unchanged, and the queried timestamp bounds the sample claim's. -/
theorem c7_global_cooldown_witness :
    recentClaimsQuery ⟨sampleStore.coupons,
      sampleStore.claims.map (renameBrowser (fun x => x ++ "2"))⟩ =
      recentClaimsQuery sampleStore ∧
    sampleClaim.claimed_at ≤ 1000 := by
  have h := c7_global_cooldown sampleStore (fun x => x ++ "2") false 0 none
  exact ⟨h.1, h.2.2.2 1000 [] (by decide) sampleClaim (by decide)⟩

/-- Skipping behaviour of ON CONFLICT DO NOTHING: a seed row whose code is
already present inserts nothing. -/
theorem insertRow_skip (mk : String → String → Coupon) (cs : List Coupon)
    (r : String × String) (h : ∃ c ∈ cs, c.code = r.1) :
    insertRow mk cs r = cs := by
  simp only [insertRow]
  rw [if_pos]
  rcases h with ⟨c, hc, he⟩
  exact List.any_eq_true.mpr ⟨c, hc, by simp [he]⟩

theorem foldl_insertRow_skip (mk : String → String → Coupon)
    (rows : List (String × String)) (cs : List Coupon)
    (h : ∀ r ∈ rows, ∃ c ∈ cs, c.code = r.1) :
    rows.foldl (insertRow mk) cs = cs := by
  induction rows with
  | nil => rfl
  | cons r rows ih =>
    rw [List.foldl_cons, insertRow_skip mk cs r (h r (List.mem_cons_self r rows))]
    exact ih fun r2 hr2 => h r2 (List.mem_cons_of_mem r hr2)

/-- C9: on an empty table the seed inserts exactly the five fixed codes with
their descriptions, in order; and on any table already containing all five
codes it inserts nothing and leaves the table unchanged. -/
theorem c9_seed_idempotent (mk : String → String → Coupon)
    (hmk : ∀ code desc, (mk code desc).code = code ∧
      (mk code desc).description = desc) :
    (seedCoupons mk []).map (fun c => (c.code, c.description)) = seedRows ∧
    ∀ cs : List Coupon, (∀ r ∈ seedRows, ∃ c ∈ cs, c.code = r.1) →
      seedCoupons mk cs = cs := by
  constructor
  · have h1 := hmk "SAVE10" "10% off your next purchase"
    have h2 := hmk "FREESHIP" "Free shipping on orders over $50"
    have h3 := hmk "SPRING25" "25% off spring collection"
    have h4 := hmk "WELCOME15" "15% off for new customers"
    have h5 := hmk "FLASH50" "50% off flash sale"
    simp [seedCoupons, seedRows, insertRow, List.foldl, h1.1, h1.2, h2.1, h2.2,
      h3.1, h3.2, h4.1, h4.2, h5.1, h5.2]
  · intro cs hall
    exact foldl_insertRow_skip mk seedRows cs hall

/-- Concrete row builder standing in for the store-side defaults in the seed
witness. -/
def mkSample (code desc : String) : Coupon := ⟨code, code, desc, false, 0⟩

/-- Witness for C9: seeding an empty table yields the five rows, and seeding
the result again changes nothing. -/
theorem c9_seed_idempotent_witness :
    (seedCoupons mkSample []).map (fun c => (c.code, c.description)) = seedRows ∧
    seedCoupons mkSample (seedCoupons mkSample []) = seedCoupons mkSample [] := by
  have h := c9_seed_idempotent mkSample fun c d => ⟨rfl, rfl⟩
  exact ⟨h.1, h.2 (seedCoupons mkSample []) (by decide)⟩

end CouponApp
